import Mathlib

/-!
Verification of the music-sync synchronized-playback core.

The server keeps in-memory maps `rooms` and `playbackStates`
(`src/server/src/index.ts`); socket handlers `room:create`, `room:join`,
`control:load`, `control:play`, `control:pause`, `control:seek` and the
disconnect handler mutate them.  We embed the maps as association lists
over string keys (lookup finds the first matching key, set replaces the
first matching entry or appends, delete removes the key), timestamps and
positions as rationals, and each handler as a pure function from server
state and inputs to the new state plus the list of emitted events.
The client-side clock reconciler (`src/client/src/lib/useTimeSync.ts`)
is embedded as a pure state-transition on its two React state cells.
-/

/-- Association lists over string keys, standing for the JS `Map`s. -/
abbrev SMap (α : Type) := List (String × α)

/-- `Map.get`: first entry with the given key, if any. -/
def mlookup {α : Type} (r : String) : SMap α → Option α
  | [] => none
  | (k, v) :: rest => if k = r then some v else mlookup r rest

/-- `Map.set`: replace the first entry with the key, else append. -/
def mset {α : Type} (k : String) (v : α) : SMap α → SMap α
  | [] => [(k, v)]
  | (k2, v2) :: rest => if k2 = k then (k, v) :: rest else (k2, v2) :: mset k v rest

/-- `Map.delete`: remove every entry with the key. -/
def mdel {α : Type} (k : String) (m : SMap α) : SMap α :=
  m.filter (fun p => p.1 ≠ k)

/-- A room entry: `{ ownerId, participants }` in the `rooms` map. -/
structure Room where
  ownerId : String
  participants : List String
deriving DecidableEq

/-- A `playbackStates` entry: `{ isPlaying, positionSec, trackUrl, startTime, lastUpdate }`. -/
structure PlaybackState where
  isPlaying : Bool
  positionSec : ℚ
  trackUrl : String
  startTime : ℚ
  lastUpdate : ℚ
deriving DecidableEq

/-- The server's shared mutable state relevant to playback: the two maps. -/
structure ServerState where
  rooms : SMap Room
  playbackStates : SMap PlaybackState
deriving DecidableEq

/-- Where an emitted socket event goes: to the requesting socket only, or to a room. -/
inductive Target where
  | sender
  | toRoom (roomId : String)
deriving DecidableEq

/-- A `queues` entry: `{ id, url, name, addedBy, addedAt }`. -/
structure QueueItem where
  id : String
  url : String
  name : String
  addedBy : String
  addedAt : ℚ
deriving DecidableEq

/-- The socket events the modelled handlers emit. -/
inductive Event where
  | denied (reason : String)
  | playEv (trackUrl : String) (positionSec : ℚ) (startAtServerMs : ℚ)
  | pauseEv (positionSec : ℚ) (serverNowMs : ℚ)
  | seekEv (positionSec : ℚ) (startAtServerMs : Option ℚ)
  | stateUpdate (trackUrl : String) (isPlaying : Bool) (positionSec : ℚ) (serverNowMs : ℚ)
  | stateInit (trackUrl : String) (isPlaying : Bool) (positionSec : ℚ)
      (startTimeMs : Option ℚ) (serverNowMs : ℚ)
  | roomInfo (roomId : String) (ownerName : String) (participants : List String)
  | roomState (roomId : String) (ownerName : String) (participants : List String)
  | ownerChanged (ownerId : String)
  | queueUpdate (items : List QueueItem)
deriving DecidableEq

/-- Reply of the `queue:add` acknowledgement callback. -/
inductive QueueAddReply where
  | fail (reason : String)
  | ok (item : QueueItem)
deriving DecidableEq

/-- Reply of the `queue:playNow` acknowledgement callback. -/
inductive PlayNowReply where
  | fail (reason : String)
  | ok
deriving DecidableEq

/-- Reply delivered through a `room:join` / `room:create` acknowledgement callback. -/
inductive AckReply where
  | fail (reason : String)
  | ok (roomId : String) (ownerName : String)
deriving DecidableEq

/-- Result of the `room:join` handler: new state, emitted events, callback reply. -/
structure JoinResult where
  state : ServerState
  emits : List (Target × Event)
  reply : AckReply
deriving DecidableEq

/-- `getCurrentPositionSec` from the server: 0 if no state; the stored
position if paused; `positionSec + (now - startTime)/1000` if playing. -/
def getCurrentPositionSec (states : SMap PlaybackState) (roomId : String) (now : ℚ) : ℚ :=
  match mlookup roomId states with
  | none => 0
  | some st =>
    if st.isPlaying then st.positionSec + (now - st.startTime) / 1000
    else st.positionSec

/-- The spec's running formula: the position a continuously-connected member
computes at server instant `t` from a running timeline. -/
def runningPositionAt (ps : PlaybackState) (t : ℚ) : ℚ :=
  ps.positionSec + (t - ps.startTime) / 1000

/-- The `control:load` handler: guards on payload, room existence and
ownership, then stores a fresh paused state at position 0 and broadcasts it. -/
def controlLoad (st : ServerState) (cu : Option String) (roomId trackUrl : String)
    (now : ℚ) : ServerState × List (Target × Event) :=
  if roomId = "" ∨ trackUrl = "" then (st, [])
  else
    match mlookup roomId st.rooms with
    | none => (st, [])
    | some room =>
      if some room.ownerId ≠ cu then
        (st, [(.sender, .denied "Only the room owner can load tracks")])
      else
        let states2 := mset roomId ⟨false, 0, trackUrl, now, now⟩ st.playbackStates
        ({ st with playbackStates := states2 },
         [(.toRoom roomId, .stateUpdate trackUrl false 0 now)])

/-- The `control:play` handler: sets `isPlaying` and a start epoch
`now + 1500` and broadcasts the scheduled start. -/
def controlPlay (st : ServerState) (cu : Option String) (roomId : String)
    (now : ℚ) : ServerState × List (Target × Event) :=
  if roomId = "" then (st, [])
  else
    match mlookup roomId st.rooms with
    | none => (st, [])
    | some room =>
      if some room.ownerId ≠ cu then
        (st, [(.sender, .denied "Only the room owner can play/pause")])
      else
        match mlookup roomId st.playbackStates with
        | none => (st, [])
        | some ps =>
          let plannedStartAtMs := now + 1500
          let ps2 := { ps with isPlaying := true, startTime := plannedStartAtMs, lastUpdate := now }
          let states2 := mset roomId ps2 st.playbackStates
          ({ st with playbackStates := states2 },
           [(.toRoom roomId, .playEv ps.trackUrl ps.positionSec plannedStartAtMs),
            (.toRoom roomId, .roomState roomId room.ownerId room.participants)])

/-- The `control:pause` handler: freezes the position at the value of
`getCurrentPositionSec` and clears `isPlaying`. -/
def controlPause (st : ServerState) (cu : Option String) (roomId : String)
    (now : ℚ) : ServerState × List (Target × Event) :=
  if roomId = "" then (st, [])
  else
    match mlookup roomId st.rooms with
    | none => (st, [])
    | some room =>
      if some room.ownerId ≠ cu then
        (st, [(.sender, .denied "Only the room owner can play/pause")])
      else
        match mlookup roomId st.playbackStates with
        | none => (st, [])
        | some ps =>
          let currentPosition := getCurrentPositionSec st.playbackStates roomId now
          let ps2 := { ps with isPlaying := false, positionSec := currentPosition, lastUpdate := now }
          let states2 := mset roomId ps2 st.playbackStates
          ({ st with playbackStates := states2 },
           [(.toRoom roomId, .pauseEv currentPosition now),
            (.toRoom roomId, .roomState roomId room.ownerId room.participants)])

/-- The `control:seek` handler: stores the requested position; if playing,
re-arms the epoch at `now + 1000`, else leaves the epoch untouched. -/
def controlSeek (st : ServerState) (cu : Option String) (roomId : String)
    (pos now : ℚ) : ServerState × List (Target × Event) :=
  if roomId = "" then (st, [])
  else
    match mlookup roomId st.rooms with
    | none => (st, [])
    | some room =>
      if some room.ownerId ≠ cu then
        (st, [(.sender, .denied "Only the room owner can seek")])
      else
        match mlookup roomId st.playbackStates with
        | none => (st, [])
        | some ps =>
          if ps.isPlaying then
            let plannedStartAtMs := now + 1000
            let ps2 := { ps with positionSec := pos, startTime := plannedStartAtMs, lastUpdate := now }
            let states2 := mset roomId ps2 st.playbackStates
            ({ st with playbackStates := states2 },
             [(.toRoom roomId, .seekEv pos (some plannedStartAtMs)),
              (.toRoom roomId, .roomState roomId room.ownerId room.participants)])
          else
            let ps2 := { ps with positionSec := pos, lastUpdate := now }
            let states2 := mset roomId ps2 st.playbackStates
            ({ st with playbackStates := states2 },
             [(.toRoom roomId, .seekEv pos none),
              (.toRoom roomId, .roomState roomId room.ownerId room.participants)])

/-- The `room:join` handler: membership insert if absent, per-socket
`state:init`, the catch-up `play` when the timeline runs (delay 2500 ms,
position advanced by 2500/1000 s), room-wide info broadcasts, reply. -/
def roomJoin (st : ServerState) (cu : Option String) (roomId : String)
    (now : ℚ) : JoinResult :=
  match cu with
  | none => ⟨st, [], .fail "Not authenticated"⟩
  | some u =>
    match mlookup roomId st.rooms with
    | none => ⟨st, [], .fail "Room not found"⟩
    | some room =>
      let room2 := if u ∈ room.participants then room
                   else { room with participants := room.participants ++ [u] }
      let st2 := { st with rooms := mset roomId room2 st.rooms }
      let joinEmits :=
        match mlookup roomId st.playbackStates with
        | none => []
        | some ps =>
          let currentPosition := getCurrentPositionSec st.playbackStates roomId now
          let initEv : Target × Event :=
            (.sender, .stateInit ps.trackUrl ps.isPlaying currentPosition
              (if ps.isPlaying then some ps.startTime else none) now)
          if ps.isPlaying then
            [initEv,
             (.sender, .playEv ps.trackUrl (currentPosition + 2500 / 1000) (now + 2500))]
          else [initEv]
      ⟨st2,
       joinEmits ++
         [(.toRoom roomId, .roomInfo roomId room2.ownerId room2.participants),
          (.toRoom roomId, .roomState roomId room2.ownerId room2.participants)],
       .ok roomId room.ownerId⟩

/-- The `room:create` handler; the randomly generated id is a parameter. -/
def roomCreate (st : ServerState) (cu : Option String) (generatedId : String) :
    ServerState × List (Target × Event) × AckReply :=
  match cu with
  | none => (st, [], .fail "Not authenticated")
  | some u =>
    ({ st with rooms := mset generatedId ⟨u, [u]⟩ st.rooms },
     [(.toRoom generatedId, .roomInfo generatedId u [u]),
      (.toRoom generatedId, .roomState generatedId u [u])],
     .ok generatedId u)

/-- The disconnect handler: drop the user from the membership; if the owner
left, promote the first remaining participant, or destroy the room and its
playback state when nobody remains. -/
def disconnectHandler (st : ServerState) (currentRoom currentUser : Option String) :
    ServerState × List (Target × Event) :=
  match currentRoom, currentUser with
  | some r, some u =>
    (match mlookup r st.rooms with
     | none => (st, [])
     | some room =>
       let parts := room.participants.filter (fun p => p ≠ u)
       if room.ownerId = u then
         match parts with
         | [] => ({ st with rooms := mdel r st.rooms, playbackStates := mdel r st.playbackStates }, [])
         | p :: rest =>
           ({ st with rooms := mset r ⟨p, p :: rest⟩ st.rooms },
            [(.toRoom r, .ownerChanged p)])
       else
         ({ st with rooms := mset r { room with participants := parts } st.rooms }, []))
  | _, _ => (st, [])

/-- `buildRoomState`: the `room:state` payload, with empty owner name and
participant list when the room is unknown. -/
def buildRoomStateEv (st : ServerState) (roomId : String) : Event :=
  match mlookup roomId st.rooms with
  | none => .roomState roomId "" []
  | some room => .roomState roomId room.ownerId room.participants

/-- `schedulePlayForRoom`: if the room has a playback state, set it running
with epoch `now + 1500` and broadcast the scheduled start; the
server-internal play step used by the auto-advance paths. -/
def schedulePlayForRoom (st : ServerState) (roomId : String) (now : ℚ) :
    ServerState × List (Target × Event) :=
  match mlookup roomId st.playbackStates with
  | none => (st, [])
  | some ps =>
    let plannedStartAtMs := now + 1500
    let ps2 := { ps with isPlaying := true, startTime := plannedStartAtMs, lastUpdate := now }
    let states2 := mset roomId ps2 st.playbackStates
    ({ st with playbackStates := states2 },
     [(.toRoom roomId, .playEv ps.trackUrl ps.positionSec plannedStartAtMs),
      (.toRoom roomId, buildRoomStateEv st roomId)])

/-- `q.findIndex(x => x.id === id)` followed by reading the found item. -/
def findById (itemId : String) : List QueueItem → Option QueueItem
  | [] => none
  | x :: rest => if x.id = itemId then some x else findById itemId rest

/-- `q.splice(idx, 1)` at the index found by `findIndex`: remove the first
item with the given id. -/
def removeFirstById (itemId : String) : List QueueItem → List QueueItem
  | [] => []
  | x :: rest => if x.id = itemId then rest else x :: removeFirstById itemId rest

/-- The `queue:add` handler: guards on payload, room and ownership; dedupes a
back-to-back add of the same url by the same user within 2000 ms; otherwise
appends an item whose url is the trimmed request url. The generated item id
is a parameter. Returns the room's new queue, emits and callback reply. -/
def queueAdd (st : ServerState) (q : List QueueItem) (cu : Option String)
    (roomId url : String) (name : Option String) (generatedItemId : String) (now : ℚ) :
    List QueueItem × List (Target × Event) × QueueAddReply :=
  if roomId = "" ∨ url.trim = "" then (q, [], .fail "Invalid payload")
  else
    match mlookup roomId st.rooms with
    | none => (q, [], .fail "Room not found")
    | some room =>
      if some room.ownerId ≠ cu then (q, [], .fail "Only owner can add to queue")
      else
        let name2 := match name with
          | some n => if n.trim = "" then url else (n.trim.take 200)
          | none => url
        match q.getLast? with
        | some last =>
          if last.url = url.trim ∧ some last.addedBy = cu ∧ now - last.addedAt < 2000 then
            (q, [], .ok last)
          else
            let item : QueueItem := ⟨generatedItemId, url.trim, name2, room.ownerId, now⟩
            (q ++ [item], [(.toRoom roomId, .queueUpdate (q ++ [item]))], .ok item)
        | none =>
          let item : QueueItem := ⟨generatedItemId, url.trim, name2, room.ownerId, now⟩
          (q ++ [item], [(.toRoom roomId, .queueUpdate (q ++ [item]))], .ok item)

/-- The `queue:playNow` handler: guards, removes the chosen item from the
queue, loads it as a fresh paused state at position 0 with epoch `now`, then
runs `schedulePlayForRoom`. -/
def queuePlayNow (st : ServerState) (q : List QueueItem) (cu : Option String)
    (roomId itemId : String) (now : ℚ) :
    ServerState × List QueueItem × List (Target × Event) × PlayNowReply :=
  if roomId = "" ∨ itemId = "" then (st, q, [], .fail "Invalid payload")
  else
    match mlookup roomId st.rooms with
    | none => (st, q, [], .fail "Room not found")
    | some room =>
      if some room.ownerId ≠ cu then (st, q, [], .fail "Only owner can play now")
      else
        match findById itemId q with
        | none => (st, q, [], .fail "Item not found")
        | some item =>
          let q2 := removeFirstById itemId q
          let st2 : ServerState :=
            { st with playbackStates := mset roomId ⟨false, 0, item.url, now, now⟩ st.playbackStates }
          let sched := schedulePlayForRoom st2 roomId now
          (sched.1, q2,
           [(.toRoom roomId, .stateUpdate item.url false 0 now),
            (.toRoom roomId, .queueUpdate q2)] ++ sched.2,
           .ok)

/-- The `playback:ended` handler (the spec's auto-advance): owner-gated and
silent on every guard; dequeues the queue head, loads it as a fresh paused
state with epoch `now`, then runs `schedulePlayForRoom`. -/
def playbackEnded (st : ServerState) (q : List QueueItem) (cu : Option String)
    (roomId : String) (now : ℚ) :
    ServerState × List QueueItem × List (Target × Event) :=
  if roomId = "" then (st, q, [])
  else
    match mlookup roomId st.rooms with
    | none => (st, q, [])
    | some room =>
      if some room.ownerId ≠ cu then (st, q, [])
      else
        match q with
        | [] => (st, q, [])
        | next :: rest =>
          let st2 : ServerState :=
            { st with playbackStates := mset roomId ⟨false, 0, next.url, now, now⟩ st.playbackStates }
          let sched := schedulePlayForRoom st2 roomId now
          (sched.1, rest,
           [(.toRoom roomId, .stateUpdate next.url false 0 now),
            (.toRoom roomId, .queueUpdate rest)] ++ sched.2)

/-- The client clock reconciler's two state cells from `useTimeSync`:
`offsetMs` starts at 0, `rttMs` starts at null. -/
structure ClockEstimate where
  offsetMs : ℤ
  rttMs : Option ℤ
deriving DecidableEq

/-- The initial `useState` values of `useTimeSync`. -/
def initClock : ClockEstimate := ⟨0, none⟩

/-- JavaScript `Math.round`: halves round toward positive infinity. -/
def jsRound (q : ℚ) : ℤ := ⌊q + 1 / 2⌋

/-- The `onPong` update of `useTimeSync`: sample `rtt = recv - t0`,
`offset = server - (t0 + rtt/2)`; `rttMs` seeds directly on the first
sample and is smoothed `0.7 prev + 0.3 new` afterwards; `offsetMs` is
smoothed against its previous value (initially 0) on every sample. -/
def onPong (st : ClockEstimate) (serverNowMs clientSendMs clientRecvMs : ℤ) :
    ClockEstimate :=
  let rtt : ℤ := clientRecvMs - clientSendMs
  let offset : ℚ := (serverNowMs : ℚ) - ((clientSendMs : ℚ) + (rtt : ℚ) / 2)
  { offsetMs := jsRound ((st.offsetMs : ℚ) * (7 / 10) + offset * (3 / 10)),
    rttMs := some (match st.rttMs with
      | none => rtt
      | some prev => jsRound ((prev : ℚ) * (7 / 10) + (rtt : ℚ) * (3 / 10))) }

/-- The ping/pong sample round-trip estimate as the spec states it. -/
def sampleRtt (clientSendMs clientRecvMs : ℤ) : ℤ := clientRecvMs - clientSendMs

/-- The ping/pong sample clock offset as the spec states it. -/
def sampleOffset (serverNowMs clientSendMs clientRecvMs : ℤ) : ℚ :=
  (serverNowMs : ℚ) - ((clientSendMs : ℚ) + (sampleRtt clientSendMs clientRecvMs : ℚ) / 2)

/-! ### Lemmas about the embedded maps -/

theorem mlookup_mset {α : Type} (m : SMap α) (k r : String) (v : α) :
    mlookup r (mset k v m) = if r = k then some v else mlookup r m := by
  induction m with
  | nil =>
    by_cases h : r = k <;> simp [mset, mlookup, h, Ne.symm]
  | cons hd tl ih =>
    obtain ⟨k2, v2⟩ := hd
    by_cases h2 : k2 = k
    · subst h2
      by_cases h : r = k2
      · simp [mset, mlookup, h]
      · simp [mset, mlookup, h, Ne.symm h]
    · by_cases h : k2 = r
      · subst h
        have hrk : ¬ k2 = k := h2
        simp [mset, h2, mlookup, hrk]
      · simp [mset, h2, mlookup, h, ih]

theorem mlookup_mdel {α : Type} (m : SMap α) (k r : String) :
    mlookup r (mdel k m) = if r = k then none else mlookup r m := by
  induction m with
  | nil => by_cases h : r = k <;> simp [mdel, mlookup, h]
  | cons hd tl ih =>
    obtain ⟨k2, v2⟩ := hd
    by_cases h2 : k2 = k
    · subst h2
      by_cases h : r = k2 <;> simp_all [mdel, mlookup, Ne.symm]
    · by_cases h : k2 = r
      · subst h
        simp_all [mdel, mlookup, h2]
      · simp_all [mdel, mlookup, h2, h]

theorem mem_of_mlookup {α : Type} {m : SMap α} {r : String} {v : α}
    (h : mlookup r m = some v) : (r, v) ∈ m := by
  induction m with
  | nil => simp [mlookup] at h
  | cons hd tl ih =>
    obtain ⟨k2, v2⟩ := hd
    by_cases h2 : k2 = r
    · subst h2
      simp [mlookup] at h
      simp [h]
    · simp [mlookup, h2] at h
      exact List.mem_cons_of_mem _ (ih h)

theorem mem_mset {α : Type} {m : SMap α} {k : String} {v : α} {p : String × α}
    (h : p ∈ mset k v m) : p = (k, v) ∨ p ∈ m := by
  induction m with
  | nil => simp [mset] at h; simp [h]
  | cons hd tl ih =>
    obtain ⟨k2, v2⟩ := hd
    by_cases h2 : k2 = k
    · subst h2
      simp [mset] at h
      rcases h with h | h
      · exact Or.inl h
      · exact Or.inr (List.mem_cons_of_mem _ h)
    · simp [mset, h2] at h
      rcases h with h | h
      · exact Or.inr (by simp [h])
      · rcases ih h with h3 | h3
        · exact Or.inl h3
        · exact Or.inr (List.mem_cons_of_mem _ h3)

theorem mem_of_mem_mdel {α : Type} {m : SMap α} {k : String} {p : String × α}
    (h : p ∈ mdel k m) : p ∈ m := by
  simpa [mdel] using (List.mem_filter.mp h).1

/-! ### The timeline invariants of the spec (claim C7) -/

/-- Every stored playback state has a track reference. -/
def tracksNonEmpty (m : SMap PlaybackState) : Prop :=
  ∀ p ∈ m, p.2.trackUrl ≠ ""

/-- Every epoch in the new map is either carried over from the old map or is
the server's own current clock plus one of the server-chosen delays
(0 ms for `load`, 1000 ms for `seek`, 1500 ms for `play`); in particular it
is never a client-supplied timestamp. -/
def epochFromServer (old new2 : SMap PlaybackState) (now : ℚ) : Prop :=
  ∀ r ps2, mlookup r new2 = some ps2 →
    (∃ ps1, mlookup r old = some ps1 ∧ ps2.startTime = ps1.startTime)
    ∨ ps2.startTime = now ∨ ps2.startTime = now + 1000 ∨ ps2.startTime = now + 1500

/-- Both invariants of the spec for one mutation step: track references are
preserved non-empty (hence no running timeline lacks a track), and every
epoch is server-derived. -/
def preservesTimelineInvariants (old new2 : SMap PlaybackState) (now : ℚ) : Prop :=
  (tracksNonEmpty old → tracksNonEmpty new2)
  ∧ (tracksNonEmpty old → ∀ p ∈ new2, p.2.isPlaying = true → p.2.trackUrl ≠ "")
  ∧ epochFromServer old new2 now

theorem preservesTimelineInvariants_of (old new2 : SMap PlaybackState) (now : ℚ)
    (h1 : tracksNonEmpty old → tracksNonEmpty new2)
    (h3 : epochFromServer old new2 now) :
    preservesTimelineInvariants old new2 now :=
  ⟨h1, fun h p hp _ => h1 h p hp, h3⟩

theorem preservesTimelineInvariants_refl (m : SMap PlaybackState) (now : ℚ) :
    preservesTimelineInvariants m m now :=
  preservesTimelineInvariants_of m m now (fun h => h)
    (fun _ ps2 h2 => Or.inl ⟨ps2, h2, rfl⟩)

theorem epochFromServer_mset (old : SMap PlaybackState) (k : String)
    (v : PlaybackState) (now : ℚ)
    (hst : (∃ ps1, mlookup k old = some ps1 ∧ v.startTime = ps1.startTime)
      ∨ v.startTime = now ∨ v.startTime = now + 1000 ∨ v.startTime = now + 1500) :
    epochFromServer old (mset k v old) now := by
  intro r ps2 hr
  rw [mlookup_mset] at hr
  by_cases h : r = k
  · rw [if_pos h] at hr
    subst h
    cases hr
    exact hst
  · rw [if_neg h] at hr
    exact Or.inl ⟨ps2, hr, rfl⟩

theorem tracksNonEmpty_mset (old : SMap PlaybackState) (k : String)
    (v : PlaybackState) (hurl : v.trackUrl ≠ "") (hm : tracksNonEmpty old) :
    tracksNonEmpty (mset k v old) := by
  intro p hp
  rcases mem_mset hp with h | h
  · subst h; exact hurl
  · exact hm p h

theorem preservesTimelineInvariants_fresh (old : SMap PlaybackState) (k : String)
    (v : PlaybackState) (now : ℚ) (hurl : v.trackUrl ≠ "")
    (hst : v.startTime = now ∨ v.startTime = now + 1000 ∨ v.startTime = now + 1500) :
    preservesTimelineInvariants old (mset k v old) now :=
  preservesTimelineInvariants_of _ _ _
    (fun hm => tracksNonEmpty_mset old k v hurl hm)
    (epochFromServer_mset old k v now (Or.inr hst))

theorem preservesTimelineInvariants_update (old : SMap PlaybackState) (k : String)
    (ps v : PlaybackState) (now : ℚ) (hk : mlookup k old = some ps)
    (hurl : v.trackUrl = ps.trackUrl)
    (hst : v.startTime = ps.startTime ∨ v.startTime = now ∨
      v.startTime = now + 1000 ∨ v.startTime = now + 1500) :
    preservesTimelineInvariants old (mset k v old) now := by
  apply preservesTimelineInvariants_of
  · intro hm
    apply tracksNonEmpty_mset old k v _ hm
    rw [hurl]
    exact hm (k, ps) (mem_of_mlookup hk)
  · apply epochFromServer_mset
    rcases hst with h | h
    · exact Or.inl ⟨ps, hk, h⟩
    · exact Or.inr h

theorem preservesTimelineInvariants_mdel (m : SMap PlaybackState) (k : String) (now : ℚ) :
    preservesTimelineInvariants m (mdel k m) now := by
  apply preservesTimelineInvariants_of
  · intro hm p hp
    exact hm p (mem_of_mem_mdel hp)
  · intro r ps2 h2
    rw [mlookup_mdel] at h2
    by_cases h : r = k
    · rw [if_pos h] at h2; cases h2
    · rw [if_neg h] at h2
      exact Or.inl ⟨ps2, h2, rfl⟩

/-! ### Claim theorems -/

/-- Claim C1: joining a room whose timeline is running emits, to the joining
socket only, a scheduled start 2500 ms in the future at position
`currentPosition + 2500/1000`, and that position is never behind the
position the running formula gives continuously-connected members at that
same start instant. -/
theorem spec_c1_join_catchup (st : ServerState) (u roomId : String) (room : Room)
    (ps : PlaybackState) (now : ℚ)
    (hroom : mlookup roomId st.rooms = some room)
    (hps : mlookup roomId st.playbackStates = some ps)
    (hplay : ps.isPlaying = true) :
    (Target.sender, Event.playEv ps.trackUrl
        (getCurrentPositionSec st.playbackStates roomId now + 2500 / 1000) (now + 2500))
      ∈ (roomJoin st (some u) roomId now).emits
    ∧ runningPositionAt ps (now + 2500) ≤
        getCurrentPositionSec st.playbackStates roomId now + 2500 / 1000 := by
  constructor
  · simp [roomJoin, hroom, hps, hplay]
  · have h : getCurrentPositionSec st.playbackStates roomId now =
        ps.positionSec + (now - ps.startTime) / 1000 := by
      simp [getCurrentPositionSec, hps, hplay]
    rw [h, runningPositionAt]
    apply le_of_eq
    ring

theorem spec_c1_join_catchup_witness :
    mlookup "R" ([("R", (⟨"a", ["a"]⟩ : Room))]) = some ⟨"a", ["a"]⟩
    ∧ mlookup "R" ([("R", (⟨true, 10, "t.mp3", 0, 0⟩ : PlaybackState))]) =
        some ⟨true, 10, "t.mp3", 0, 0⟩
    ∧ ((Target.sender, Event.playEv "t.mp3"
          (getCurrentPositionSec [("R", ⟨true, 10, "t.mp3", 0, 0⟩)] "R" 1000 + 2500 / 1000)
          (1000 + 2500))
        ∈ (roomJoin ⟨[("R", ⟨"a", ["a"]⟩)], [("R", ⟨true, 10, "t.mp3", 0, 0⟩)]⟩
            (some "b") "R" 1000).emits
      ∧ runningPositionAt ⟨true, 10, "t.mp3", 0, 0⟩ (1000 + 2500) ≤
          getCurrentPositionSec [("R", ⟨true, 10, "t.mp3", 0, 0⟩)] "R" 1000 + 2500 / 1000) :=
  ⟨rfl, rfl,
   spec_c1_join_catchup ⟨[("R", ⟨"a", ["a"]⟩)], [("R", ⟨true, 10, "t.mp3", 0, 0⟩)]⟩
     "b" "R" ⟨"a", ["a"]⟩ ⟨true, 10, "t.mp3", 0, 0⟩ 1000 rfl rfl rfl⟩

/-- Claim C2: the controller's pause stores as position the value of the
running formula (`positionSec + (now - startTime)/1000` when playing, the
stored `positionSec` when not) and clears `isPlaying`. -/
theorem spec_c2_pause_running_formula (st : ServerState) (u roomId : String) (room : Room)
    (ps : PlaybackState) (now : ℚ)
    (hrid : roomId ≠ "")
    (hroom : mlookup roomId st.rooms = some room)
    (howner : room.ownerId = u)
    (hps : mlookup roomId st.playbackStates = some ps) :
    mlookup roomId (controlPause st (some u) roomId now).1.playbackStates =
      some { ps with isPlaying := false, positionSec := if ps.isPlaying then ps.positionSec + (now - ps.startTime) / 1000 else ps.positionSec, lastUpdate := now } := by
  subst howner
  by_cases hp : ps.isPlaying <;>
    simp [controlPause, hrid, hroom, hps, hp, getCurrentPositionSec, mlookup_mset]

theorem spec_c2_pause_running_formula_witness :
    ("R" : String) ≠ ""
    ∧ mlookup "R" ([("R", (⟨"a", ["a"]⟩ : Room))]) = some ⟨"a", ["a"]⟩
    ∧ mlookup "R" ([("R", (⟨true, 10, "t.mp3", 2000, 0⟩ : PlaybackState))]) =
        some ⟨true, 10, "t.mp3", 2000, 0⟩
    ∧ mlookup "R" (controlPause ⟨[("R", ⟨"a", ["a"]⟩)], [("R", ⟨true, 10, "t.mp3", 2000, 0⟩)]⟩
        (some "a") "R" 5000).1.playbackStates =
      some { (⟨true, 10, "t.mp3", 2000, 0⟩ : PlaybackState) with isPlaying := false, positionSec := if (⟨true, 10, "t.mp3", 2000, 0⟩ : PlaybackState).isPlaying then (10 : ℚ) + (5000 - 2000) / 1000 else 10, lastUpdate := 5000 } := by
  refine ⟨by decide, rfl, rfl, ?_⟩
  exact spec_c2_pause_running_formula ⟨[("R", ⟨"a", ["a"]⟩)], [("R", ⟨true, 10, "t.mp3", 2000, 0⟩)]⟩
    "a" "R" ⟨"a", ["a"]⟩ ⟨true, 10, "t.mp3", 2000, 0⟩ 5000 (by decide) rfl rfl rfl

/-- Claim C3: the controller's seek stores the requested base position; when
the timeline is running it also re-arms a fresh epoch at `now + 1000`, and
when it is not running the epoch is left unchanged. -/
theorem spec_c3_seek_epoch (st : ServerState) (u roomId : String) (room : Room)
    (ps : PlaybackState) (pos now : ℚ)
    (hrid : roomId ≠ "")
    (hroom : mlookup roomId st.rooms = some room)
    (howner : room.ownerId = u)
    (hps : mlookup roomId st.playbackStates = some ps) :
    mlookup roomId (controlSeek st (some u) roomId pos now).1.playbackStates =
      some (if ps.isPlaying then { ps with positionSec := pos, startTime := now + 1000, lastUpdate := now } else { ps with positionSec := pos, lastUpdate := now }) := by
  subst howner
  by_cases hp : ps.isPlaying <;>
    simp [controlSeek, hrid, hroom, hps, hp, mlookup_mset]

theorem spec_c3_seek_epoch_witness :
    ("R" : String) ≠ ""
    ∧ mlookup "R" ([("R", (⟨"a", ["a"]⟩ : Room))]) = some ⟨"a", ["a"]⟩
    ∧ mlookup "R" ([("R", (⟨false, 10, "t.mp3", 2000, 0⟩ : PlaybackState))]) =
        some ⟨false, 10, "t.mp3", 2000, 0⟩
    ∧ mlookup "R" (controlSeek ⟨[("R", ⟨"a", ["a"]⟩)], [("R", ⟨false, 10, "t.mp3", 2000, 0⟩)]⟩
        (some "a") "R" 42 5000).1.playbackStates =
      some (if (⟨false, 10, "t.mp3", 2000, 0⟩ : PlaybackState).isPlaying then { (⟨false, 10, "t.mp3", 2000, 0⟩ : PlaybackState) with positionSec := 42, startTime := (5000 : ℚ) + 1000, lastUpdate := 5000 } else { (⟨false, 10, "t.mp3", 2000, 0⟩ : PlaybackState) with positionSec := 42, lastUpdate := 5000 }) := by
  refine ⟨by decide, rfl, rfl, ?_⟩
  exact spec_c3_seek_epoch ⟨[("R", ⟨"a", ["a"]⟩)], [("R", ⟨false, 10, "t.mp3", 2000, 0⟩)]⟩
    "a" "R" ⟨"a", ["a"]⟩ ⟨false, 10, "t.mp3", 2000, 0⟩ 42 5000 (by decide) rfl rfl rfl

/-- Claim C10: when the controller pauses while `isPlaying` is true but
before the scheduled start (`now < startTime`), the unclamped elapsed term
is negative, so the stored position strictly decreases below the base
position, and it goes below zero whenever the base position is smaller than
`(startTime - now)/1000`: the timeline is rewound, not frozen. -/
theorem spec_c10_pause_before_start_rewinds (st : ServerState) (u roomId : String)
    (room : Room) (ps : PlaybackState) (now : ℚ)
    (hrid : roomId ≠ "")
    (hroom : mlookup roomId st.rooms = some room)
    (howner : room.ownerId = u)
    (hps : mlookup roomId st.playbackStates = some ps)
    (hplay : ps.isPlaying = true)
    (hearly : now < ps.startTime) :
    mlookup roomId (controlPause st (some u) roomId now).1.playbackStates =
      some { ps with isPlaying := false, positionSec := ps.positionSec + (now - ps.startTime) / 1000, lastUpdate := now }
    ∧ ps.positionSec + (now - ps.startTime) / 1000 < ps.positionSec
    ∧ (ps.positionSec < (ps.startTime - now) / 1000 →
        ps.positionSec + (now - ps.startTime) / 1000 < 0) := by
  have hneg : (now - ps.startTime) / 1000 < 0 := by
    apply div_neg_of_neg_of_pos
    · linarith
    · norm_num
  refine ⟨?_, by linarith, fun h => ?_⟩
  · subst howner
    simp [controlPause, hrid, hroom, hps, hplay, getCurrentPositionSec, mlookup_mset]
  · have heq : (now - ps.startTime) / 1000 = -((ps.startTime - now) / 1000) := by ring
    rw [heq]
    linarith

theorem spec_c10_pause_before_start_rewinds_witness :
    ("R" : String) ≠ ""
    ∧ mlookup "R" ([("R", (⟨"a", ["a"]⟩ : Room))]) = some ⟨"a", ["a"]⟩
    ∧ mlookup "R" ([("R", (⟨true, 1, "t.mp3", 10000, 0⟩ : PlaybackState))]) =
        some ⟨true, 1, "t.mp3", 10000, 0⟩
    ∧ (⟨true, 1, "t.mp3", 10000, 0⟩ : PlaybackState).isPlaying = true
    ∧ (0 : ℚ) < (⟨true, 1, "t.mp3", 10000, 0⟩ : PlaybackState).startTime
    ∧ (mlookup "R" (controlPause ⟨[("R", ⟨"a", ["a"]⟩)], [("R", ⟨true, 1, "t.mp3", 10000, 0⟩)]⟩
          (some "a") "R" 0).1.playbackStates =
        some { (⟨true, 1, "t.mp3", 10000, 0⟩ : PlaybackState) with isPlaying := false, positionSec := (1 : ℚ) + (0 - 10000) / 1000, lastUpdate := 0 }
      ∧ (1 : ℚ) + (0 - 10000) / 1000 < 1
      ∧ ((1 : ℚ) < (10000 - 0) / 1000 → (1 : ℚ) + (0 - 10000) / 1000 < 0)) := by
  refine ⟨by decide, rfl, rfl, rfl, by norm_num, ?_⟩
  exact spec_c10_pause_before_start_rewinds
    ⟨[("R", ⟨"a", ["a"]⟩)], [("R", ⟨true, 1, "t.mp3", 10000, 0⟩)]⟩
    "a" "R" ⟨"a", ["a"]⟩ ⟨true, 1, "t.mp3", 10000, 0⟩ 0 (by decide) rfl rfl rfl rfl (by norm_num)

/-- Claim C4 counterexample: with server time 1000, send time 0 and receive
time 0, the first sample's offset is 1000, but `onPong` on the initial state
stores `round(0.7*0 + 0.3*1000) = 300`, not 1000: the first sample does not
seed `offsetMs` directly. -/
theorem spec_c4_first_sample_counterexample :
    sampleOffset 1000 0 0 = 1000
    ∧ (onPong initClock 1000 0 0).offsetMs = 300
    ∧ (onPong initClock 1000 0 0).offsetMs ≠ jsRound (sampleOffset 1000 0 0) := by
  norm_num [onPong, initClock, jsRound, sampleOffset, sampleRtt]

/-- Claim C4 as amended: the first sample seeds only `rttMs` directly;
`offsetMs` starts at 0 and every sample, the first included, is smoothed as
`round(0.7 * previous + 0.3 * new)`, where the new sample is
`rtt = receiveTime - t0` and `offset = serverTime - (t0 + rtt/2)`. -/
theorem spec_c4_smoothing (st : ClockEstimate) (s t0 t1 : ℤ) :
    (onPong st s t0 t1).offsetMs =
      jsRound ((st.offsetMs : ℚ) * (7 / 10) + sampleOffset s t0 t1 * (3 / 10))
    ∧ (onPong st s t0 t1).rttMs =
        some (match st.rttMs with
          | none => sampleRtt t0 t1
          | some prev => jsRound ((prev : ℚ) * (7 / 10) + (sampleRtt t0 t1 : ℚ) * (3 / 10))) := by
  constructor <;> simp [onPong, sampleOffset, sampleRtt]

/-- Claim C5: when the room's controller disconnects, either other members
remain and the first remaining member of the membership list becomes
controller, or the departing identity was the sole member, in which case the
room and its playback state are destroyed and a later join of that id
fails with the room-not-found reply. -/
theorem spec_c5_owner_departure (st : ServerState) (r u w : String) (room : Room) (now : ℚ)
    (hroom : mlookup r st.rooms = some room)
    (howner : room.ownerId = u) :
    (∀ p rest, room.participants.filter (fun x => x ≠ u) = p :: rest →
        mlookup r (disconnectHandler st (some r) (some u)).1.rooms = some ⟨p, p :: rest⟩)
    ∧ (room.participants = [u] →
        mlookup r (disconnectHandler st (some r) (some u)).1.rooms = none
        ∧ mlookup r (disconnectHandler st (some r) (some u)).1.playbackStates = none
        ∧ (roomJoin (disconnectHandler st (some r) (some u)).1 (some w) r now).reply =
            .fail "Room not found") := by
  constructor
  · intro p rest hparts
    simp only [ne_eq, decide_not] at hparts
    simp [disconnectHandler, hroom, howner, hparts, mlookup_mset]
  · intro hsole
    have hparts : room.participants.filter (fun x => !decide (x = u)) = [] := by
      simp [hsole]
    have hrooms : mlookup r (disconnectHandler st (some r) (some u)).1.rooms = none := by
      simp [disconnectHandler, hroom, howner, hparts, mlookup_mdel]
    refine ⟨hrooms, ?_, ?_⟩
    · simp [disconnectHandler, hroom, howner, hparts, mlookup_mdel]
    · simp [roomJoin, hrooms]

theorem spec_c5_owner_departure_witness :
    mlookup "R" ([("R", (⟨"a", ["a"]⟩ : Room))]) = some ⟨"a", ["a"]⟩
    ∧ ((∀ p rest, (⟨"a", ["a"]⟩ : Room).participants.filter (fun x => x ≠ "a") = p :: rest →
          mlookup "R" (disconnectHandler ⟨[("R", ⟨"a", ["a"]⟩)], [("R", ⟨false, 0, "t", 0, 0⟩)]⟩
            (some "R") (some "a")).1.rooms = some ⟨p, p :: rest⟩)
      ∧ ((⟨"a", ["a"]⟩ : Room).participants = ["a"] →
          mlookup "R" (disconnectHandler ⟨[("R", ⟨"a", ["a"]⟩)], [("R", ⟨false, 0, "t", 0, 0⟩)]⟩
            (some "R") (some "a")).1.rooms = none
          ∧ mlookup "R" (disconnectHandler ⟨[("R", ⟨"a", ["a"]⟩)], [("R", ⟨false, 0, "t", 0, 0⟩)]⟩
              (some "R") (some "a")).1.playbackStates = none
          ∧ (roomJoin (disconnectHandler ⟨[("R", ⟨"a", ["a"]⟩)], [("R", ⟨false, 0, "t", 0, 0⟩)]⟩
              (some "R") (some "a")).1 (some "b") "R" 0).reply = .fail "Room not found")) := by
  refine ⟨rfl, ?_⟩
  exact spec_c5_owner_departure ⟨[("R", ⟨"a", ["a"]⟩)], [("R", ⟨false, 0, "t", 0, 0⟩)]⟩
    "R" "a" "b" ⟨"a", ["a"]⟩ 0 rfl rfl

/-- Claim C9: a repeated join by an identity already in the membership list
leaves the room entry unchanged, so the identity still appears exactly once
when it appeared exactly once before. -/
theorem spec_c9_join_idempotent (st : ServerState) (u roomId : String) (room : Room) (now : ℚ)
    (hroom : mlookup roomId st.rooms = some room)
    (hu : u ∈ room.participants) :
    mlookup roomId (roomJoin st (some u) roomId now).state.rooms = some room
    ∧ (room.participants.count u = 1 →
        ∀ room2, mlookup roomId (roomJoin st (some u) roomId now).state.rooms = some room2 →
          room2.participants.count u = 1) := by
  have h1 : mlookup roomId (roomJoin st (some u) roomId now).state.rooms = some room := by
    simp [roomJoin, hroom, hu, mlookup_mset]
  refine ⟨h1, fun hc room2 h2 => ?_⟩
  rw [h1] at h2
  injection h2 with h3
  rw [← h3]
  exact hc

theorem spec_c9_join_idempotent_witness :
    mlookup "R" ([("R", (⟨"a", ["a", "b"]⟩ : Room))]) = some ⟨"a", ["a", "b"]⟩
    ∧ "b" ∈ (⟨"a", ["a", "b"]⟩ : Room).participants
    ∧ (mlookup "R" (roomJoin ⟨[("R", ⟨"a", ["a", "b"]⟩)], []⟩ (some "b") "R" 0).state.rooms =
        some ⟨"a", ["a", "b"]⟩
      ∧ ((⟨"a", ["a", "b"]⟩ : Room).participants.count "b" = 1 →
          ∀ room2, mlookup "R" (roomJoin ⟨[("R", ⟨"a", ["a", "b"]⟩)], []⟩
              (some "b") "R" 0).state.rooms = some room2 →
            room2.participants.count "b" = 1)) := by
  refine ⟨rfl, by decide, ?_⟩
  exact spec_c9_join_idempotent ⟨[("R", ⟨"a", ["a", "b"]⟩)], []⟩ "b" "R" ⟨"a", ["a", "b"]⟩ 0
    rfl (by decide)

/-- Claim C6: for each of load/play/pause/seek, an unknown room (or, for
load, a missing track URL) is silently ignored: the state is unchanged and
nothing is emitted; a sender who is not the room's controller gets exactly
one denial notice addressed to the sender only, with the state unchanged;
and a controller command on a room with no playback state (play/pause/seek)
is silently ignored as well. -/
theorem spec_c6_guard_semantics (st : ServerState) (cu : Option String)
    (roomId trackUrl : String) (pos now : ℚ)
    (hrid : roomId ≠ "") :
    (trackUrl = "" → controlLoad st cu roomId trackUrl now = (st, []))
    ∧ (mlookup roomId st.rooms = none →
        controlLoad st cu roomId trackUrl now = (st, [])
        ∧ controlPlay st cu roomId now = (st, [])
        ∧ controlPause st cu roomId now = (st, [])
        ∧ controlSeek st cu roomId pos now = (st, []))
    ∧ (∀ room, mlookup roomId st.rooms = some room → some room.ownerId ≠ cu →
        (trackUrl ≠ "" →
          controlLoad st cu roomId trackUrl now =
            (st, [(.sender, .denied "Only the room owner can load tracks")]))
        ∧ controlPlay st cu roomId now =
            (st, [(.sender, .denied "Only the room owner can play/pause")])
        ∧ controlPause st cu roomId now =
            (st, [(.sender, .denied "Only the room owner can play/pause")])
        ∧ controlSeek st cu roomId pos now =
            (st, [(.sender, .denied "Only the room owner can seek")]))
    ∧ (∀ room, mlookup roomId st.rooms = some room → some room.ownerId = cu →
        mlookup roomId st.playbackStates = none →
        controlPlay st cu roomId now = (st, [])
        ∧ controlPause st cu roomId now = (st, [])
        ∧ controlSeek st cu roomId pos now = (st, [])) := by
  refine ⟨?_, ?_, ?_, ?_⟩
  · intro ht
    simp [controlLoad, ht]
  · intro hnone
    by_cases ht : trackUrl = "" <;>
      exact ⟨by simp [controlLoad, hrid, ht, hnone],
             by simp [controlPlay, hrid, hnone],
             by simp [controlPause, hrid, hnone],
             by simp [controlSeek, hrid, hnone]⟩
  · intro room hroom hne
    refine ⟨fun ht => ?_, ?_, ?_, ?_⟩
    · simp [controlLoad, hrid, ht, hroom, hne]
    · simp [controlPlay, hrid, hroom, hne]
    · simp [controlPause, hrid, hroom, hne]
    · simp [controlSeek, hrid, hroom, hne]
  · intro room hroom howner hnops
    refine ⟨?_, ?_, ?_⟩
    · simp [controlPlay, hrid, hroom, howner, hnops]
    · simp [controlPause, hrid, hroom, howner, hnops]
    · simp [controlSeek, hrid, hroom, howner, hnops]

theorem spec_c6_guard_semantics_witness :
    ("R" : String) ≠ ""
    ∧ (("" : String) = "" → controlLoad ⟨[("R", ⟨"a", ["a"]⟩)], []⟩ (some "b") "R" "" 0 =
        (⟨[("R", ⟨"a", ["a"]⟩)], []⟩, []))
    ∧ (mlookup "R" (⟨[("R", ⟨"a", ["a"]⟩)], []⟩ : ServerState).rooms = none →
        controlLoad ⟨[("R", ⟨"a", ["a"]⟩)], []⟩ (some "b") "R" "" 0 = (⟨[("R", ⟨"a", ["a"]⟩)], []⟩, [])
        ∧ controlPlay ⟨[("R", ⟨"a", ["a"]⟩)], []⟩ (some "b") "R" 0 = (⟨[("R", ⟨"a", ["a"]⟩)], []⟩, [])
        ∧ controlPause ⟨[("R", ⟨"a", ["a"]⟩)], []⟩ (some "b") "R" 0 = (⟨[("R", ⟨"a", ["a"]⟩)], []⟩, [])
        ∧ controlSeek ⟨[("R", ⟨"a", ["a"]⟩)], []⟩ (some "b") "R" 3 0 = (⟨[("R", ⟨"a", ["a"]⟩)], []⟩, []))
    ∧ (∀ room, mlookup "R" (⟨[("R", ⟨"a", ["a"]⟩)], []⟩ : ServerState).rooms = some room →
        some room.ownerId ≠ some "b" →
        ((("" : String) ≠ "" →
          controlLoad ⟨[("R", ⟨"a", ["a"]⟩)], []⟩ (some "b") "R" "" 0 =
            (⟨[("R", ⟨"a", ["a"]⟩)], []⟩, [(.sender, .denied "Only the room owner can load tracks")]))
        ∧ controlPlay ⟨[("R", ⟨"a", ["a"]⟩)], []⟩ (some "b") "R" 0 =
            (⟨[("R", ⟨"a", ["a"]⟩)], []⟩, [(.sender, .denied "Only the room owner can play/pause")])
        ∧ controlPause ⟨[("R", ⟨"a", ["a"]⟩)], []⟩ (some "b") "R" 0 =
            (⟨[("R", ⟨"a", ["a"]⟩)], []⟩, [(.sender, .denied "Only the room owner can play/pause")])
        ∧ controlSeek ⟨[("R", ⟨"a", ["a"]⟩)], []⟩ (some "b") "R" 3 0 =
            (⟨[("R", ⟨"a", ["a"]⟩)], []⟩, [(.sender, .denied "Only the room owner can seek")])))
    ∧ (∀ room, mlookup "R" (⟨[("R", ⟨"a", ["a"]⟩)], []⟩ : ServerState).rooms = some room →
        some room.ownerId = some "b" →
        mlookup "R" (⟨[("R", ⟨"a", ["a"]⟩)], []⟩ : ServerState).playbackStates = none →
        controlPlay ⟨[("R", ⟨"a", ["a"]⟩)], []⟩ (some "b") "R" 0 = (⟨[("R", ⟨"a", ["a"]⟩)], []⟩, [])
        ∧ controlPause ⟨[("R", ⟨"a", ["a"]⟩)], []⟩ (some "b") "R" 0 = (⟨[("R", ⟨"a", ["a"]⟩)], []⟩, [])
        ∧ controlSeek ⟨[("R", ⟨"a", ["a"]⟩)], []⟩ (some "b") "R" 3 0 = (⟨[("R", ⟨"a", ["a"]⟩)], []⟩, [])) := by
  refine ⟨by decide, ?_⟩
  exact spec_c6_guard_semantics ⟨[("R", ⟨"a", ["a"]⟩)], []⟩ (some "b") "R" "" 3 0 (by decide)

/-- Queue invariant: every queued item has a non-empty url (`queue:add`
trims and rejects empty urls, see `queueAdd_queue_urls`). -/
def queueUrlsNonEmpty (q : List QueueItem) : Prop :=
  ∀ x ∈ q, x.url ≠ ""

theorem mem_of_findById {q : List QueueItem} {itemId : String} {item : QueueItem}
    (h : findById itemId q = some item) : item ∈ q := by
  induction q with
  | nil => simp [findById] at h
  | cons hd tl ih =>
    by_cases h2 : hd.id = itemId
    · simp [findById, h2] at h
      simp [h]
    · simp [findById, h2] at h
      exact List.mem_cons_of_mem _ (ih h)

theorem queueAdd_queue_urls (st : ServerState) (q : List QueueItem) (cu : Option String)
    (roomId url : String) (name : Option String) (generatedItemId : String) (now : ℚ)
    (hq : queueUrlsNonEmpty q) :
    queueUrlsNonEmpty (queueAdd st q cu roomId url name generatedItemId now).1 := by
  unfold queueAdd
  split
  · exact hq
  next hguard =>
    push_neg at hguard
    split
    · exact hq
    · split
      · exact hq
      · have hpush : ∀ item : QueueItem, item.url = url.trim →
            queueUrlsNonEmpty (q ++ [item]) := by
          intro item hi x hx
          rcases List.mem_append.mp hx with h | h
          · exact hq x h
          · simp at h
            rw [h, hi]
            exact hguard.2
        split <;> split <;> try split
        all_goals dsimp only
        all_goals try split
        all_goals first | exact hq | exact hpush _ rfl

theorem preservesTimelineInvariants_trans (a b c : SMap PlaybackState) (now : ℚ)
    (h1 : preservesTimelineInvariants a b now)
    (h2 : preservesTimelineInvariants b c now) :
    preservesTimelineInvariants a c now := by
  obtain ⟨t1, -, e1⟩ := h1
  obtain ⟨t2, -, e2⟩ := h2
  apply preservesTimelineInvariants_of
  · exact fun h => t2 (t1 h)
  · intro r ps2 hc
    rcases e2 r ps2 hc with ⟨ps1, hb, hst⟩ | h | h | h
    · rcases e1 r ps1 hb with ⟨ps0, ha, hst0⟩ | h | h | h
      · exact Or.inl ⟨ps0, ha, hst.trans hst0⟩
      · exact Or.inr (Or.inl (hst.trans h))
      · exact Or.inr (Or.inr (Or.inl (hst.trans h)))
      · exact Or.inr (Or.inr (Or.inr (hst.trans h)))
    · exact Or.inr (Or.inl h)
    · exact Or.inr (Or.inr (Or.inl h))
    · exact Or.inr (Or.inr (Or.inr h))

theorem schedulePlayForRoom_inv (st : ServerState) (roomId : String) (now : ℚ) :
    preservesTimelineInvariants st.playbackStates
      (schedulePlayForRoom st roomId now).1.playbackStates now := by
  unfold schedulePlayForRoom
  split
  · exact preservesTimelineInvariants_refl _ _
  next ps hps =>
    exact preservesTimelineInvariants_update _ roomId ps _ now hps rfl
      (Or.inr (Or.inr (Or.inr rfl)))

theorem queuePlayNow_inv (st : ServerState) (q : List QueueItem) (cu : Option String)
    (roomId itemId : String) (now : ℚ) (hq : queueUrlsNonEmpty q) :
    preservesTimelineInvariants st.playbackStates
      (queuePlayNow st q cu roomId itemId now).1.playbackStates now := by
  unfold queuePlayNow
  split
  · exact preservesTimelineInvariants_refl _ _
  · split
    · exact preservesTimelineInvariants_refl _ _
    · split
      · exact preservesTimelineInvariants_refl _ _
      · split
        · exact preservesTimelineInvariants_refl _ _
        next item hitem =>
          dsimp only
          apply preservesTimelineInvariants_trans st.playbackStates
            (mset roomId ⟨false, 0, item.url, now, now⟩ st.playbackStates) _ now
          · exact preservesTimelineInvariants_fresh _ roomId _ now
              (hq item (mem_of_findById hitem)) (Or.inl rfl)
          · exact schedulePlayForRoom_inv
              { st with playbackStates := mset roomId ⟨false, 0, item.url, now, now⟩ st.playbackStates }
              roomId now

theorem playbackEnded_inv (st : ServerState) (q : List QueueItem) (cu : Option String)
    (roomId : String) (now : ℚ) (hq : queueUrlsNonEmpty q) :
    preservesTimelineInvariants st.playbackStates
      (playbackEnded st q cu roomId now).1.playbackStates now := by
  cases q with
  | nil =>
    unfold playbackEnded
    split
    · exact preservesTimelineInvariants_refl _ _
    · split
      · exact preservesTimelineInvariants_refl _ _
      · split
        · exact preservesTimelineInvariants_refl _ _
        · exact preservesTimelineInvariants_refl _ _
  | cons hd tl =>
    unfold playbackEnded
    split
    · exact preservesTimelineInvariants_refl _ _
    · split
      · exact preservesTimelineInvariants_refl _ _
      · split
        · exact preservesTimelineInvariants_refl _ _
        · dsimp only
          apply preservesTimelineInvariants_trans st.playbackStates
            (mset roomId ⟨false, 0, hd.url, now, now⟩ st.playbackStates) _ now
          · exact preservesTimelineInvariants_fresh _ roomId _ now
              (hq hd (List.mem_cons_self hd tl)) (Or.inl rfl)
          · exact schedulePlayForRoom_inv
              { st with playbackStates := mset roomId ⟨false, 0, hd.url, now, now⟩ st.playbackStates }
              roomId now

theorem controlLoad_inv (st : ServerState) (cu : Option String)
    (roomId trackUrl : String) (now : ℚ) :
    preservesTimelineInvariants st.playbackStates
      (controlLoad st cu roomId trackUrl now).1.playbackStates now := by
  unfold controlLoad
  split
  · exact preservesTimelineInvariants_refl _ _
  next hguard =>
    push_neg at hguard
    split
    · exact preservesTimelineInvariants_refl _ _
    · split
      · exact preservesTimelineInvariants_refl _ _
      · exact preservesTimelineInvariants_fresh _ roomId _ now hguard.2 (Or.inl rfl)

theorem controlPlay_inv (st : ServerState) (cu : Option String)
    (roomId : String) (now : ℚ) :
    preservesTimelineInvariants st.playbackStates
      (controlPlay st cu roomId now).1.playbackStates now := by
  unfold controlPlay
  split
  · exact preservesTimelineInvariants_refl _ _
  · split
    · exact preservesTimelineInvariants_refl _ _
    · split
      · exact preservesTimelineInvariants_refl _ _
      · split
        · exact preservesTimelineInvariants_refl _ _
        next ps hps =>
          exact preservesTimelineInvariants_update _ roomId ps _ now hps rfl
            (Or.inr (Or.inr (Or.inr rfl)))

theorem controlPause_inv (st : ServerState) (cu : Option String)
    (roomId : String) (now : ℚ) :
    preservesTimelineInvariants st.playbackStates
      (controlPause st cu roomId now).1.playbackStates now := by
  unfold controlPause
  split
  · exact preservesTimelineInvariants_refl _ _
  · split
    · exact preservesTimelineInvariants_refl _ _
    · split
      · exact preservesTimelineInvariants_refl _ _
      · split
        · exact preservesTimelineInvariants_refl _ _
        next ps hps =>
          exact preservesTimelineInvariants_update _ roomId ps _ now hps rfl (Or.inl rfl)

theorem controlSeek_inv (st : ServerState) (cu : Option String)
    (roomId : String) (pos now : ℚ) :
    preservesTimelineInvariants st.playbackStates
      (controlSeek st cu roomId pos now).1.playbackStates now := by
  unfold controlSeek
  split
  · exact preservesTimelineInvariants_refl _ _
  · split
    · exact preservesTimelineInvariants_refl _ _
    · split
      · exact preservesTimelineInvariants_refl _ _
      · split
        · exact preservesTimelineInvariants_refl _ _
        next ps hps =>
          split
          · exact preservesTimelineInvariants_update _ roomId ps _ now hps rfl
              (Or.inr (Or.inr (Or.inl rfl)))
          · exact preservesTimelineInvariants_update _ roomId ps _ now hps rfl (Or.inl rfl)

theorem disconnectHandler_inv (st : ServerState) (cr cu : Option String) (now : ℚ) :
    preservesTimelineInvariants st.playbackStates
      (disconnectHandler st cr cu).1.playbackStates now := by
  unfold disconnectHandler
  split
  · split
    · exact preservesTimelineInvariants_refl _ _
    · split
      · dsimp only
        split
        · exact preservesTimelineInvariants_mdel _ _ _
        · exact preservesTimelineInvariants_refl _ _
      · exact preservesTimelineInvariants_refl _ _
  · exact preservesTimelineInvariants_refl _ _

theorem roomJoin_inv (st : ServerState) (cu : Option String) (roomId : String) (now : ℚ) :
    preservesTimelineInvariants st.playbackStates
      (roomJoin st cu roomId now).state.playbackStates now := by
  unfold roomJoin
  split
  · exact preservesTimelineInvariants_refl _ _
  · split
    · exact preservesTimelineInvariants_refl _ _
    · exact preservesTimelineInvariants_refl _ _

theorem roomCreate_inv (st : ServerState) (cu : Option String) (generatedId : String)
    (now : ℚ) :
    preservesTimelineInvariants st.playbackStates
      (roomCreate st cu generatedId).1.playbackStates now := by
  unfold roomCreate
  split
  · exact preservesTimelineInvariants_refl _ _
  · exact preservesTimelineInvariants_refl _ _

/-- Claim C7: every operation that mutates a room's playback state — load,
play, pause, seek, join, create, disconnect, and the auto-advance paths
`queue:playNow`, `playback:ended` and `schedulePlayForRoom` (given the queue
invariant that `queue:add` maintains: queued urls are non-empty) — preserves
the two timeline invariants: stored track references stay non-empty (so a
running timeline always has a track), and every stored epoch is either
carried over or equal to the server's own clock plus a server-chosen delay
(0, 1000 or 1500 ms), never a client-supplied timestamp. -/
theorem spec_c7_timeline_invariants (st : ServerState) (cu cr cu2 : Option String)
    (roomId trackUrl generatedId itemId : String) (q : List QueueItem) (pos now : ℚ)
    (hq : queueUrlsNonEmpty q) :
    preservesTimelineInvariants st.playbackStates
      (controlLoad st cu roomId trackUrl now).1.playbackStates now
    ∧ preservesTimelineInvariants st.playbackStates
        (controlPlay st cu roomId now).1.playbackStates now
    ∧ preservesTimelineInvariants st.playbackStates
        (controlPause st cu roomId now).1.playbackStates now
    ∧ preservesTimelineInvariants st.playbackStates
        (controlSeek st cu roomId pos now).1.playbackStates now
    ∧ preservesTimelineInvariants st.playbackStates
        (roomJoin st cu roomId now).state.playbackStates now
    ∧ preservesTimelineInvariants st.playbackStates
        (roomCreate st cu generatedId).1.playbackStates now
    ∧ preservesTimelineInvariants st.playbackStates
        (disconnectHandler st cr cu2).1.playbackStates now
    ∧ preservesTimelineInvariants st.playbackStates
        (schedulePlayForRoom st roomId now).1.playbackStates now
    ∧ preservesTimelineInvariants st.playbackStates
        (queuePlayNow st q cu roomId itemId now).1.playbackStates now
    ∧ preservesTimelineInvariants st.playbackStates
        (playbackEnded st q cu roomId now).1.playbackStates now :=
  ⟨controlLoad_inv st cu roomId trackUrl now,
   controlPlay_inv st cu roomId now,
   controlPause_inv st cu roomId now,
   controlSeek_inv st cu roomId pos now,
   roomJoin_inv st cu roomId now,
   roomCreate_inv st cu generatedId now,
   disconnectHandler_inv st cr cu2 now,
   schedulePlayForRoom_inv st roomId now,
   queuePlayNow_inv st q cu roomId itemId now hq,
   playbackEnded_inv st q cu roomId now hq⟩

theorem spec_c7_timeline_invariants_witness :
    queueUrlsNonEmpty [⟨"q1", "u.mp3", "n", "a", 0⟩]
    ∧ preservesTimelineInvariants (⟨[("R", ⟨"a", ["a"]⟩)], [("R", ⟨false, 3, "t.mp3", 0, 0⟩)]⟩ : ServerState).playbackStates
        (controlLoad (⟨[("R", ⟨"a", ["a"]⟩)], [("R", ⟨false, 3, "t.mp3", 0, 0⟩)]⟩ : ServerState) (some "a") "R" "x.mp3" 2).1.playbackStates 2
    ∧ preservesTimelineInvariants (⟨[("R", ⟨"a", ["a"]⟩)], [("R", ⟨false, 3, "t.mp3", 0, 0⟩)]⟩ : ServerState).playbackStates
        (controlPlay (⟨[("R", ⟨"a", ["a"]⟩)], [("R", ⟨false, 3, "t.mp3", 0, 0⟩)]⟩ : ServerState) (some "a") "R" 2).1.playbackStates 2
    ∧ preservesTimelineInvariants (⟨[("R", ⟨"a", ["a"]⟩)], [("R", ⟨false, 3, "t.mp3", 0, 0⟩)]⟩ : ServerState).playbackStates
        (controlPause (⟨[("R", ⟨"a", ["a"]⟩)], [("R", ⟨false, 3, "t.mp3", 0, 0⟩)]⟩ : ServerState) (some "a") "R" 2).1.playbackStates 2
    ∧ preservesTimelineInvariants (⟨[("R", ⟨"a", ["a"]⟩)], [("R", ⟨false, 3, "t.mp3", 0, 0⟩)]⟩ : ServerState).playbackStates
        (controlSeek (⟨[("R", ⟨"a", ["a"]⟩)], [("R", ⟨false, 3, "t.mp3", 0, 0⟩)]⟩ : ServerState) (some "a") "R" 1 2).1.playbackStates 2
    ∧ preservesTimelineInvariants (⟨[("R", ⟨"a", ["a"]⟩)], [("R", ⟨false, 3, "t.mp3", 0, 0⟩)]⟩ : ServerState).playbackStates
        (roomJoin (⟨[("R", ⟨"a", ["a"]⟩)], [("R", ⟨false, 3, "t.mp3", 0, 0⟩)]⟩ : ServerState) (some "a") "R" 2).state.playbackStates 2
    ∧ preservesTimelineInvariants (⟨[("R", ⟨"a", ["a"]⟩)], [("R", ⟨false, 3, "t.mp3", 0, 0⟩)]⟩ : ServerState).playbackStates
        (roomCreate (⟨[("R", ⟨"a", ["a"]⟩)], [("R", ⟨false, 3, "t.mp3", 0, 0⟩)]⟩ : ServerState) (some "a") "G").1.playbackStates 2
    ∧ preservesTimelineInvariants (⟨[("R", ⟨"a", ["a"]⟩)], [("R", ⟨false, 3, "t.mp3", 0, 0⟩)]⟩ : ServerState).playbackStates
        (disconnectHandler (⟨[("R", ⟨"a", ["a"]⟩)], [("R", ⟨false, 3, "t.mp3", 0, 0⟩)]⟩ : ServerState) (some "R") (some "a")).1.playbackStates 2
    ∧ preservesTimelineInvariants (⟨[("R", ⟨"a", ["a"]⟩)], [("R", ⟨false, 3, "t.mp3", 0, 0⟩)]⟩ : ServerState).playbackStates
        (schedulePlayForRoom (⟨[("R", ⟨"a", ["a"]⟩)], [("R", ⟨false, 3, "t.mp3", 0, 0⟩)]⟩ : ServerState) "R" 2).1.playbackStates 2
    ∧ preservesTimelineInvariants (⟨[("R", ⟨"a", ["a"]⟩)], [("R", ⟨false, 3, "t.mp3", 0, 0⟩)]⟩ : ServerState).playbackStates
        (queuePlayNow (⟨[("R", ⟨"a", ["a"]⟩)], [("R", ⟨false, 3, "t.mp3", 0, 0⟩)]⟩ : ServerState) [⟨"q1", "u.mp3", "n", "a", 0⟩] (some "a") "R" "q1" 2).1.playbackStates 2
    ∧ preservesTimelineInvariants (⟨[("R", ⟨"a", ["a"]⟩)], [("R", ⟨false, 3, "t.mp3", 0, 0⟩)]⟩ : ServerState).playbackStates
        (playbackEnded (⟨[("R", ⟨"a", ["a"]⟩)], [("R", ⟨false, 3, "t.mp3", 0, 0⟩)]⟩ : ServerState) [⟨"q1", "u.mp3", "n", "a", 0⟩] (some "a") "R" 2).1.playbackStates 2 := by
  have hq : queueUrlsNonEmpty [⟨"q1", "u.mp3", "n", "a", 0⟩] := by
    intro x hx
    simp at hx
    subst hx
    decide
  exact ⟨hq,
    spec_c7_timeline_invariants (⟨[("R", ⟨"a", ["a"]⟩)], [("R", ⟨false, 3, "t.mp3", 0, 0⟩)]⟩ : ServerState)
      (some "a") (some "R") (some "a") "R" "x.mp3" "G" "q1"
      [⟨"q1", "u.mp3", "n", "a", 0⟩] 1 2 hq⟩

/-- Claim C8 is a defect in the code: `room:create` never checks whether the
freshly generated id is already in use; it overwrites the existing entry.
With an existing room "R1" owned by alice and a generated id "R1" for bob's
create request, alice's room entry is silently replaced by bob's new room. -/
theorem spec_c8_collision_overwrites :
    mlookup "R1" (⟨[("R1", ⟨"alice", ["alice"]⟩)], []⟩ : ServerState).rooms =
      some ⟨"alice", ["alice"]⟩
    ∧ mlookup "R1" (roomCreate ⟨[("R1", ⟨"alice", ["alice"]⟩)], []⟩
        (some "bob") "R1").1.rooms = some ⟨"bob", ["bob"]⟩
    ∧ (⟨"bob", ["bob"]⟩ : Room) ≠ ⟨"alice", ["alice"]⟩ := by
  refine ⟨rfl, rfl, by decide⟩
